import Mathlib

/-!
Verification of the duckdb-raquet raster core: metadata descriptor parsing
(`raquet_metadata.hpp`), gzip band decompression and pixel decoding
(`band_decoder.cpp`), and the row-wise summary-statistics adapters
(`st_raster_stats.cpp`).

Strings are modelled as `List Char`; C++ `std::string` scanning functions are
translated index-for-index.  Machine integers appear as `Int`/`Nat` with
explicit `% 2 ^ 64` where `size_t` wraparound matters.  Exceptions are
modelled with `Except`; the row adapters' `try`/`catch` blocks become matches
on the `Except` value.
-/

set_option maxRecDepth 100000

/-- Character strings, modelled as lists of characters. -/
abbrev Str := List Char

/-- Convert a Lean string literal to the `Str` model. -/
def strLit (s : String) : Str := s.data

/-- Double-quote character. -/
def qc : Char := Char.ofNat 34

/-- Left brace character. -/
def lb : Char := Char.ofNat 123

/-- Right brace character. -/
def rb : Char := Char.ofNat 125

/-- Left square bracket character. -/
def lk : Char := Char.ofNat 91

/-- Right square bracket character. -/
def rk : Char := Char.ofNat 93

/-- Error taxonomy of the core (spec section 7): `invalidInput` for a null
required buffer or out-of-range explicit index, `unknownPixelType` for an
unrecognized type name, `decodeFailure` for codec failures, and
`outOfBounds` marking a read past the logical end of a buffer (undefined
behavior in the C++ source, made explicit in the model). -/
inductive DecodeErr
  | invalidInput
  | unknownPixelType
  | decodeFailure
  | outOfBounds
  deriving DecidableEq, Repr

/-- Decidable equality for `Except`, so that concrete runs of the fallible
operations can be checked by `decide`. -/
instance instDecEqExcept {ε α : Type} [DecidableEq ε] [DecidableEq α] :
    DecidableEq (Except ε α) := fun x y =>
  match x, y with
  | .ok a, .ok b =>
    if h : a = b then .isTrue (h ▸ rfl) else .isFalse (fun hh => h (Except.ok.inj hh))
  | .error a, .error b =>
    if h : a = b then .isTrue (h ▸ rfl) else .isFalse (fun hh => h (Except.error.inj hh))
  | .ok _, .error _ => .isFalse (fun hh => Except.noConfusion hh)
  | .error _, .ok _ => .isFalse (fun hh => Except.noConfusion hh)

/-- Auxiliary for `strFind`: index of the first position at which `pat`
is a prefix of the remaining string (`std::string::find`). -/
def strFindAux : Str → Str → Nat → Option Nat
  | [], pat, i => if pat = [] then some i else none
  | c :: rest, pat, i =>
    if pat.isPrefixOf (c :: rest) then some i else strFindAux rest pat (i + 1)

/-- `std::string::find(pat)`: first index where `pat` occurs, if any. -/
def strFind (s pat : Str) : Option Nat := strFindAux s pat 0

/-- `std::string::find(pat, k)`: first index `≥ k` where `pat` occurs. -/
def strFindFrom (s pat : Str) (k : Nat) : Option Nat :=
  match strFind (s.drop k) pat with
  | none => none
  | some j => some (k + j)

/-- Number of leading space/tab characters (the skip-whitespace loop of
`extract_json_string`). -/
def countSpaceTab : Str → Nat
  | [] => 0
  | c :: rest => if c = ' ' ∨ c = '\t' then countSpaceTab rest + 1 else 0

/-- Number of leading characters that are not `,`, `}` or `]` (the
unquoted-value scan of `extract_json_string`). -/
def countUntilDelim : Str → Nat
  | [] => 0
  | c :: rest => if c = ',' ∨ c = rb ∨ c = rk then 0 else countUntilDelim rest + 1

/-- Remove trailing space/tab characters (the trim loop of
`extract_json_string`). -/
def trimTail (s : Str) : Str :=
  ((s.reverse.dropWhile (fun c => c = ' ' ∨ c = '\t')).reverse)

/-- The search pattern `"key":` built by the extraction helpers. -/
def keySearch (key : Str) : Str := qc :: (key ++ [qc, ':'])

/-- `extract_json_string` from `raquet_metadata.hpp`: locate `"key":`, skip
spaces/tabs, then read either a quoted string (up to the next quote) or an
unquoted token up to `,`/`}`/`]` with trailing whitespace trimmed; empty
string when anything is missing. -/
def extract_json_string (json key : Str) : Str :=
  let search := keySearch key
  match strFind json search with
  | none => []
  | some p =>
    let pos := p + search.length
    let pos := pos + countSpaceTab (json.drop pos)
    if json.length ≤ pos then []
    else if json.getD pos ' ' = qc then
      let pos := pos + 1
      match strFind (json.drop pos) [qc] with
      | none => []
      | some e => (json.drop pos).take e
    else
      let rest := json.drop pos
      trimTail (rest.take (countUntilDelim rest))

/-- Character is a decimal digit. -/
def isDigitC (c : Char) : Bool := 48 ≤ c.toNat ∧ c.toNat ≤ 57

/-- Character is in the `std::isspace` set. -/
def isSpaceC (c : Char) : Bool :=
  c = ' ' ∨ c = '\t' ∨ c = '\n' ∨ c.toNat = 11 ∨ c.toNat = 12 ∨ c.toNat = 13

/-- Digit list to number. -/
def digitsVal (ds : Str) : Nat :=
  ds.foldl (fun acc c => acc * 10 + (c.toNat - 48)) 0

/-- Model of `std::stoi` (base 10): skip leading whitespace, optional sign,
then a nonempty digit run (further characters are ignored); `none` when no
digits follow or the value does not fit a 32-bit `int` (both throw in C++). -/
def stoi (s : Str) : Option Int :=
  let s1 := s.dropWhile isSpaceC
  let (neg, s2) : Bool × Str :=
    match s1 with
    | c :: rest => if c = '-' then (true, rest) else if c = '+' then (false, rest) else (false, s1)
    | [] => (false, [])
  let ds := s2.takeWhile isDigitC
  if ds = [] then none
  else
    let v : Int := if neg then -(digitsVal ds : Int) else (digitsVal ds : Int)
    if v < -(2 ^ 31) ∨ (2 ^ 31) ≤ v then none else some v

/-- `extract_json_int` from `raquet_metadata.hpp`: extract the string value,
fall back to `default_val` when it is empty or `std::stoi` fails. -/
def extract_json_int (json key : Str) (default_val : Int) : Int :=
  let val := extract_json_string json key
  if val = [] then default_val
  else
    match stoi val with
    | none => default_val
    | some v => v

/-- Brace-depth scan of `extract_json_object`: consume characters updating
the depth, stopping after the character that brings the depth to zero (or at
the end of the string); returns the number of characters consumed. -/
def scanObj : Str → Int → Nat
  | [], _ => 0
  | c :: rest, depth =>
    let d := if c = lb then depth + 1 else if c = rb then depth - 1 else depth
    if d = 0 then 1 else scanObj rest d + 1

/-- `extract_json_object` from `raquet_metadata.hpp`: locate `"key":`, skip
spaces/tabs/newlines, then return the balanced `{...}` substring (braces
included); empty string when the value is not an object. -/
def extract_json_object (json key : Str) : Str :=
  let search := keySearch key
  match strFind json search with
  | none => []
  | some p =>
    let pos := p + search.length
    let pos := pos + ((json.drop pos).takeWhile (fun c => c = ' ' ∨ c = '\t' ∨ c = '\n')).length
    if json.length ≤ pos then []
    else if json.getD pos ' ' ≠ lb then []
    else (json.drop pos).take (1 + scanObj (json.drop (pos + 1)) 1)

/-- Band-object loop of `parse_bands`, with explicit fuel (each iteration
consumes at least one character, so `s.length + 1` units always suffice):
find the next `{`, match the first following `}`, extract the `name` and
`type` fields, drop the pair when either is empty, continue after the `}`. -/
def parseBandObjsF : Nat → Str → List (Str × Str)
  | 0, _ => []
  | fuel + 1, s =>
    match strFind s [lb] with
    | none => []
    | some ost =>
      match strFindFrom s [rb] ost with
      | none => []
      | some oe =>
        let band_obj := (s.drop ost).take (oe - ost + 1)
        let name := extract_json_string band_obj (strLit "name")
        let ty := extract_json_string band_obj (strLit "type")
        let rest := parseBandObjsF fuel (s.drop (oe + 1))
        if name ≠ [] ∧ ty ≠ [] then (name, ty) :: rest else rest

/-- `parse_bands` from `raquet_metadata.hpp`: locate `"bands":`, take the
span between the first `[` after it and the first `]` after that `[`, then
run the band-object loop on the span. -/
def parse_bands (json : Str) : List (Str × Str) :=
  match strFind json (keySearch (strLit "bands")) with
  | none => []
  | some bands_pos =>
    match strFindFrom json [lk] bands_pos with
    | none => []
    | some arr_start =>
      match strFindFrom json [rk] arr_start with
      | none => []
      | some arr_end =>
        let bands_str := (json.drop (arr_start + 1)).take (arr_end - arr_start - 1)
        parseBandObjsF (bands_str.length + 1) bands_str

/-- Per-band nodata information used by the statistics adapters.
Modelled from the spec: the `band_info` member referenced by
`st_raster_stats.cpp` is not part of the `RaquetMetadata` struct in the
available source (spec section 9 open question); spec section 3 describes it
as an ordered sequence, index-aligned with `bands`, each entry carrying an
optional nodata sentinel. -/
structure BandInfo where
  has_nodata : Bool
  nodata : Rat
  deriving DecidableEq, Repr

/-- Parsed raquet metadata (`RaquetMetadata` in `raquet_metadata.hpp`),
with the spec-modelled `band_info` list appended (see `BandInfo`). -/
structure RaquetMetadata where
  compression : Str
  block_width : Int
  block_height : Int
  min_zoom : Int
  max_zoom : Int
  pixel_zoom : Int
  num_blocks : Int
  scheme : Str
  crs : Str
  bands : List (Str × Str)
  band_info : List BandInfo
  deriving DecidableEq, Repr

/-- `RaquetMetadata::get_band_type(int)`: throws `std::invalid_argument`
(InvalidInput) when the index is negative or not below the number of bands,
otherwise returns that band's type string. -/
def RaquetMetadata.get_band_type (meta : RaquetMetadata) (band_index : Int) : Except DecodeErr Str :=
  if band_index < 0 ∨ (meta.bands.length : Int) ≤ band_index then
    .error .invalidInput
  else
    .ok (meta.bands.getD band_index.toNat ([], [])).2

/-- `parse_metadata` from `raquet_metadata.hpp`: total extraction with
defaults; the tiling fields come from the nested `tiling` object when one is
present (note: in that branch `scheme` is whatever the tiling object
declares, possibly empty), otherwise from fixed defaults.  The source never
populates `band_info` (see `BandInfo`), so it is empty. -/
def parse_metadata (json : Str) : RaquetMetadata :=
  let compression0 := extract_json_string json (strLit "compression")
  let compression := if compression0 = [] then strLit "none" else compression0
  let crs := extract_json_string json (strLit "crs")
  let tiling := extract_json_object json (strLit "tiling")
  let bands := parse_bands json
  if tiling ≠ [] then
    { compression := compression
      block_width := extract_json_int tiling (strLit "block_width") 256
      block_height := extract_json_int tiling (strLit "block_height") 256
      min_zoom := extract_json_int tiling (strLit "min_zoom") 0
      max_zoom := extract_json_int tiling (strLit "max_zoom") 26
      pixel_zoom := extract_json_int tiling (strLit "pixel_zoom") 0
      num_blocks := extract_json_int tiling (strLit "num_blocks") 0
      scheme := extract_json_string tiling (strLit "scheme")
      crs := crs
      bands := bands
      band_info := [] }
  else
    { compression := compression
      block_width := 256
      block_height := 256
      min_zoom := 0
      max_zoom := 26
      pixel_zoom := 0
      num_blocks := 0
      scheme := strLit "quadbin"
      crs := crs
      bands := bands
      band_info := [] }




/-- Byte buffers: lists of byte values. -/
abbrev Bytes := List Nat

/-- Result of one `inflateInit2` + `inflate(Z_FINISH)` attempt of the zlib
codec (an external library, modelled as an oracle): either initialization
failed, or inflate returned code `ret` with `availOut` output bytes left
unused and `out` the produced output (the buffer truncated to its filled
part, as the source's final `resize` does).  `ret = 1` is `Z_STREAM_END`,
`ret = -5` is `Z_BUF_ERROR`. -/
inductive ZOut
  | initFail
  | inflated (ret : Int) (availOut : Nat) (out : Bytes)
  deriving DecidableEq, Repr

/-- A zlib behaviour: attempt outcome as a function of the compressed input
and the output-buffer size offered. -/
abbrev ZOracle := Bytes → Nat → ZOut

/-- Initial output-buffer estimate of `decompress_gzip`: a fixed 256·256
default for small inputs, `size * 50` for inputs over 100 bytes. -/
def estBuf (size : Nat) : Nat := if 100 < size then size * 50 else 256 * 256

/-- `decompress_gzip` from `band_decoder.cpp`, instrumented with the list of
output-buffer sizes attempted: empty input returns empty output; a null
pointer with nonzero declared size throws; otherwise one inflate pass on a
buffer of `estBuf size` bytes, with exactly one retry on a buffer 4 times as
large when the first pass exhausted its output buffer (`Z_BUF_ERROR` with
`avail_out == 0`); every other failure throws. -/
def decompress_run (oracle : ZOracle) (data : Option Bytes) (size : Nat) :
    Except DecodeErr Bytes × List Nat :=
  if size = 0 then (.ok [], [])
  else
    match data with
    | none => (.error .invalidInput, [])
    | some input =>
      let est := estBuf size
      match oracle input est with
      | .initFail => (.error .decodeFailure, [est])
      | .inflated ret availOut out =>
        if ret = -5 ∧ availOut = 0 then
          match oracle input (est * 4) with
          | .initFail => (.error .decodeFailure, [est, est * 4])
          | .inflated ret2 _ out2 =>
            if ret2 ≠ 1 then (.error .decodeFailure, [est, est * 4])
            else (.ok out2, [est, est * 4])
        else if ret ≠ 1 then (.error .decodeFailure, [est])
        else (.ok out, [est])

/-- `decompress_gzip`: the result component of `decompress_run`. -/
def decompress_gzip (oracle : ZOracle) (data : Option Bytes) (size : Nat) :
    Except DecodeErr Bytes :=
  (decompress_run oracle data size).1

/-- The pixel-type encodings (`BandDataType`).
Modelled from the spec: the registry lives in `band_decoder.hpp`, which is
not among the available sources; spec section 3 fixes the closed set
(unsigned/signed integers of 8/16/32/64 bits, 32/64-bit floats). -/
inductive BandDataType
  | uint8 | int8 | uint16 | int16 | uint32 | int32 | uint64 | int64
  | float32 | float64
  deriving DecidableEq, Repr

/-- Byte width of each pixel type. -/
def byteWidth : BandDataType → Nat
  | .uint8 => 1 | .int8 => 1
  | .uint16 => 2 | .int16 => 2
  | .uint32 => 4 | .int32 => 4
  | .uint64 => 8 | .int64 => 8
  | .float32 => 4 | .float64 => 8

/-- `parse_dtype`.
Modelled from the spec: declared in the missing `band_decoder.hpp`; spec
section 4.3 — maps a type name to its encoding, raising `UnknownPixelType`
for an unrecognized name. -/
def parse_dtype (s : Str) : Except DecodeErr BandDataType :=
  if s = strLit "uint8" then .ok .uint8
  else if s = strLit "int8" then .ok .int8
  else if s = strLit "uint16" then .ok .uint16
  else if s = strLit "int16" then .ok .int16
  else if s = strLit "uint32" then .ok .uint32
  else if s = strLit "int32" then .ok .int32
  else if s = strLit "uint64" then .ok .uint64
  else if s = strLit "int64" then .ok .int64
  else if s = strLit "float32" then .ok .float32
  else if s = strLit "float64" then .ok .float64
  else .error .unknownPixelType

/-- Decoded sample values, widened to double precision: a finite value
(exact rational), an infinity, or not-a-number. -/
inductive PVal
  | num (q : Rat)
  | inf (neg : Bool)
  | nan
  deriving DecidableEq, Repr

/-- IEEE-754 `==` on decoded values: finite values compare by value,
infinities by sign, and not-a-number compares unequal to everything. -/
def PVal.feq : PVal → PVal → Bool
  | .num a, .num b => a = b
  | .inf a, .inf b => a = b
  | _, _ => false

/-- Little-endian assembly of a byte list into a natural number. -/
def assembleLE (bytes : Bytes) : Nat :=
  bytes.foldr (fun b acc => b + 256 * acc) 0

/-- Read `w` bytes at byte offset `start`, little-endian; `none` when the
read would pass the logical end of the buffer. -/
def readLE (data : Bytes) (start w : Nat) : Option Nat :=
  if start + w ≤ data.length then some (assembleLE ((data.drop start).take w))
  else none

/-- Interpret `w`-byte little-endian bits as an integer sample
(two's complement when `signed`). -/
def interpInt (signed : Bool) (w bits : Nat) : PVal :=
  if signed ∧ 2 ^ (8 * w - 1) ≤ bits then .num ((bits : Rat) - 2 ^ (8 * w))
  else .num (bits : Rat)

/-- Interpret IEEE-754 bits with `ebits` exponent bits and `mbits` mantissa
bits (bias `(2 ^ ebits - 1) / 2`) as a sample value. -/
def interpFloat (ebits mbits bits : Nat) : PVal :=
  let frac := bits % 2 ^ mbits
  let expo := bits / 2 ^ mbits % 2 ^ ebits
  let sgn := bits / 2 ^ (mbits + ebits) % 2
  let maxE := 2 ^ ebits - 1
  if expo = maxE then
    if frac = 0 then .inf (sgn = 1) else .nan
  else
    let mag : Rat :=
      if expo = 0 then (frac : Rat) / 2 ^ mbits * 2 / 2 ^ (maxE / 2)
      else ((2 ^ mbits + frac : Rat) / 2 ^ mbits) * 2 ^ expo / 2 ^ (maxE / 2)
    .num (if sgn = 1 then -mag else mag)

/-- Decode one sample from its bits according to the pixel type. -/
def decodeBits : BandDataType → Nat → PVal
  | .uint8, b => interpInt false 1 b
  | .int8, b => interpInt true 1 b
  | .uint16, b => interpInt false 2 b
  | .int16, b => interpInt true 2 b
  | .uint32, b => interpInt false 4 b
  | .int32, b => interpInt true 4 b
  | .uint64, b => interpInt false 8 b
  | .int64, b => interpInt true 8 b
  | .float32, b => interpFloat 8 23 b
  | .float64, b => interpFloat 11 52 b

/-- `get_pixel_value`.
Modelled from the spec: declared in the missing `band_decoder.hpp`; spec
section 4.3 — reads the value at **element** offset `offset` and widens it
to double precision.  A read past the buffer's logical end is undefined
behavior in C++; the model makes it the explicit `outOfBounds` outcome. -/
def get_pixel_value (data : Bytes) (offset : Nat) (t : BandDataType) : Except DecodeErr PVal :=
  match readLE data (offset * byteWidth t) (byteWidth t) with
  | none => .error .outOfBounds
  | some bits => .ok (decodeBits t bits)

/-- `size_t` image of a C `int` value (the cast in `decode_pixel`). -/
def u64 (i : Int) : Nat := (i % 2 ^ 64).toNat

/-- `decode_pixel` from `band_decoder.cpp`: parse the type name, decompress
when `compressed`, compute the row-major element offset
`y * width + x` in `size_t` arithmetic, and read that element.  The source
performs no bounds check on the offset. -/
def decode_pixel (oracle : ZOracle) (band_data : Option Bytes) (band_size : Nat)
    (dtype_str : Str) (pixel_x pixel_y width : Int) (compressed : Bool) :
    Except DecodeErr PVal :=
  match parse_dtype dtype_str with
  | .error e => .error e
  | .ok t =>
    match (if compressed then decompress_gzip oracle band_data band_size
           else .ok (band_data.getD [])) with
    | .error e => .error e
    | .ok data =>
      let offset := (u64 pixel_y * u64 width + u64 pixel_x) % 2 ^ 64
      get_pixel_value data offset t

/-- Number of elements of the grid, `width * height` in `size_t`
arithmetic. -/
def gridSize (width height : Int) : Nat := u64 width * u64 height % 2 ^ 64

/-- Decode `n` consecutive elements starting at element offset `i`. -/
def decodeFrom (data : Bytes) (t : BandDataType) (i : Nat) : Nat → Except DecodeErr (List PVal)
  | 0 => .ok []
  | k + 1 =>
    match get_pixel_value data i t with
    | .error e => .error e
    | .ok v =>
      match decodeFrom data t (i + 1) k with
      | .error e => .error e
      | .ok vs => .ok (v :: vs)

/-- The decoded sample sequence seen by the statistics engine: parse the
type name, decompress when `compressed`, then read every element offset
`0 .. width*height` in row-major order.
Modelled from the spec: `compute_band_stats` lives in the missing
`band_decoder.hpp`; spec section 4.5 fixes this pipeline. -/
def band_values (oracle : ZOracle) (data : Bytes) (dtype_str : Str)
    (width height : Int) (compressed : Bool) : Except DecodeErr (List PVal) :=
  match parse_dtype dtype_str with
  | .error e => .error e
  | .ok t =>
    match (if compressed then decompress_gzip oracle (some data) data.length
           else .ok data) with
    | .error e => .error e
    | .ok bytes => decodeFrom bytes t 0 (gridSize width height)

/-- The nodata filter of the statistics engine.
Modelled from the spec (section 4.5): a sample matches the nodata sentinel
when the sentinel is not-a-number and the sample is not-a-number
(`std::isnan` special case), or otherwise when IEEE `==` holds exactly. -/
def matchesNodata (v nodata : PVal) : Bool :=
  match nodata with
  | .nan => v = .nan
  | _ => PVal.feq v nodata

/-- Addition on sample values (IEEE semantics on the model domain). -/
def PVal.add : PVal → PVal → PVal
  | .nan, _ => .nan
  | _, .nan => .nan
  | .inf a, .inf b => if a = b then .inf a else .nan
  | .inf a, .num _ => .inf a
  | .num _, .inf b => .inf b
  | .num a, .num b => .num (a + b)

/-- Binary minimum on sample values (not-a-number absorbs; model choice,
no claim depends on it). -/
def PVal.minA : PVal → PVal → PVal
  | .nan, _ => .nan
  | _, .nan => .nan
  | .inf a, .inf b => .inf (a ∨ b)
  | .inf a, .num q => if a then .inf a else .num q
  | .num q, .inf b => if b then .inf b else .num q
  | .num a, .num b => .num (min a b)

/-- Binary maximum on sample values (not-a-number absorbs; model choice,
no claim depends on it). -/
def PVal.maxA : PVal → PVal → PVal
  | .nan, _ => .nan
  | _, .nan => .nan
  | .inf a, .inf b => .inf (a ∧ b)
  | .inf a, .num q => if a then .num q else .inf a
  | .num q, .inf b => if b then .num q else .inf b
  | .num a, .num b => .num (max a b)

/-- Division of a sample value by a positive count. -/
def PVal.divN : PVal → Nat → PVal
  | .num q, n => .num (q / n)
  | .inf a, _ => .inf a
  | .nan, _ => .nan

/-- The finite (rational) part of a sample value, when it has one. -/
def PVal.toQ : PVal → Option Rat
  | .num q => some q
  | _ => none

/-- Aggregate record produced by the statistics engine (`BandStats`).
The source's `stddev` is the square root of the population variance; the
square root is not rational-representable, so the model carries the
`variance` field instead (no claim depends on the `stddev` value). -/
structure BandStats where
  count : Nat
  sum : PVal
  mean : Option PVal
  minV : Option PVal
  maxV : Option PVal
  variance : Option PVal
  deriving DecidableEq, Repr

/-- Sum of a sample list. -/
def sumP (l : List PVal) : PVal := l.foldl PVal.add (.num 0)

/-- Fold of a binary operation over a nonempty list, `none` when empty. -/
def foldOpt (op : PVal → PVal → PVal) (l : List PVal) : Option PVal :=
  match l with
  | [] => none
  | v :: rest => some (rest.foldl op v)

/-- Population variance over the finite part of a list of samples,
not-a-number when any sample is non-finite. -/
def varP (l : List PVal) : Option PVal :=
  match l with
  | [] => none
  | _ =>
    match l.mapM PVal.toQ with
    | none => some .nan
    | some qs =>
      let m := qs.sum / qs.length
      some (.num ((qs.map (fun q => (q - m) ^ 2)).sum / qs.length))

/-- Aggregates of a list of included samples: running count/sum/min/max per
spec section 4.5, with `mean`/`min`/`max`/`variance` null when the count is
zero. -/
def statsOfList (vals : List PVal) : BandStats :=
  { count := vals.length
    sum := sumP vals
    mean := if vals.length = 0 then none else some ((sumP vals).divN vals.length)
    minV := foldOpt PVal.minA vals
    maxV := foldOpt PVal.maxA vals
    variance := varP vals }

/-- `compute_band_stats`.
Modelled from the spec: declared in the missing `band_decoder.hpp`; spec
section 4.5 — decode every element, exclude the samples matching the nodata
sentinel when `has_nodata`, and aggregate the rest.  Decompression and
decoding failures propagate. -/
def compute_band_stats (oracle : ZOracle) (data : Bytes) (dtype_str : Str)
    (width height : Int) (compressed has_nodata : Bool) (nodata : PVal) :
    Except DecodeErr BandStats :=
  match band_values oracle data dtype_str width height compressed with
  | .error e => .error e
  | .ok vals =>
    .ok (statsOfList (if has_nodata then vals.filter (fun v => !(matchesNodata v nodata)) else vals))




/-- Row input of the 6-argument overload: nullable band blob, type name,
width, height, compression string, nullable nodata value. -/
abbrev Row6 := Option Bytes × Str × Int × Int × Str × Option PVal

/-- Row input of the 5-argument overload (no nodata). -/
abbrev Row5 := Option Bytes × Str × Int × Int × Str

/-- Row input of the 2-argument overload: nullable band blob and metadata
string. -/
abbrev Row2 := Option Bytes × Str

/-- Row input of the 3-argument overload: nullable band blob, metadata
string and band index. -/
abbrev Row3 := Option Bytes × Str × Int

/-- The `try`/`catch` of a row body: a successful computation fills the
row's struct, any caught exception makes the row null; either way the batch
continues. -/
def tryToRow (x : Except DecodeErr BandStats) : Except DecodeErr (Option BandStats) :=
  match x with
  | .ok s => .ok (some s)
  | .error _ => .ok none

/-- Per-row body of `STRasterSummaryStatsFunction` (6 arguments).  The outer
`Except` layer is an exception escaping the row's `try`/`catch` and aborting
the batch; the code catches every `std::exception`, so the value is always
`.ok`: `.ok none` is a null row.  A null band or empty band buffer is a null
row before any decoding; a failure inside the `try` is converted to a null
row by the `catch`. -/
def statsRowE (oracle : ZOracle) : Row6 → Except DecodeErr (Option BandStats)
  | (band, dtype, width, height, compression, nodata) =>
    match band with
    | none => .ok none
    | some b =>
      if b.length = 0 then .ok none
      else
        let compressed := compression = strLit "gzip"
        let has_nodata := nodata.isSome
        tryToRow (compute_band_stats oracle b dtype width height compressed has_nodata
          (nodata.getD (.num 0)))

/-- Per-row body of `STRasterSummaryStatsSimpleFunction` (5 arguments):
as the 6-argument overload with nodata filtering disabled. -/
def statsSimpleRowE (oracle : ZOracle) : Row5 → Except DecodeErr (Option BandStats)
  | (band, dtype, width, height, compression) =>
    match band with
    | none => .ok none
    | some b =>
      if b.length = 0 then .ok none
      else
        let compressed := compression = strLit "gzip"
        tryToRow (compute_band_stats oracle b dtype width height compressed false (.num 0))

/-- The `try`-block body of the 2-argument overload
(`STRasterSummaryStatsMetadataFunction`): derive the configuration from the
parsed metadata (pixel type from the first band, `uint8` fallback; block
dimensions; compression flag; nodata from the first `band_info` entry) and
run the statistics engine. -/
def metaStatsCall (oracle : ZOracle) (b : Bytes) (metadata : Str) : Except DecodeErr BandStats :=
  let meta := parse_metadata metadata
  let dtype := if meta.bands = [] then strLit "uint8" else (meta.bands.getD 0 ([], [])).2
  let compressed := meta.compression = strLit "gzip"
  let has_nodata := meta.band_info ≠ [] ∧ (meta.band_info.getD 0 ⟨false, 0⟩).has_nodata
  let nodata : PVal :=
    if has_nodata then .num (meta.band_info.getD 0 ⟨false, 0⟩).nodata else .num 0
  compute_band_stats oracle b dtype meta.block_width meta.block_height
    compressed has_nodata nodata

/-- Per-row body of `STRasterSummaryStatsMetadataFunction` (2 arguments):
null or empty band is a null row; otherwise the `try`-block body
`metaStatsCall` runs, its failure caught into a null row. -/
def statsMetaRowE (oracle : ZOracle) : Row2 → Except DecodeErr (Option BandStats)
  | (band, metadata) =>
    match band with
    | none => .ok none
    | some b =>
      if b.length = 0 then .ok none
      else
        tryToRow (metaStatsCall oracle b metadata)

/-- The `try`-block body of the 3-argument overload
(`STRasterSummaryStatsMetadataBandFunction`): `get_band_type` may throw
`InvalidInput` (propagated here as the error), otherwise the configuration
uses the indexed band's type and `band_info[band_idx]`. -/
def metaBandStatsCall (oracle : ZOracle) (b : Bytes) (metadata : Str) (band_idx : Int) :
    Except DecodeErr BandStats :=
  let meta := parse_metadata metadata
  match meta.get_band_type band_idx with
  | .error e => .error e
  | .ok dtype =>
    let compressed := meta.compression = strLit "gzip"
    let has_nodata := band_idx < (meta.band_info.length : Int) ∧
      (meta.band_info.getD band_idx.toNat ⟨false, 0⟩).has_nodata
    let nodata : PVal :=
      if has_nodata then .num (meta.band_info.getD band_idx.toNat ⟨false, 0⟩).nodata
      else .num 0
    compute_band_stats oracle b dtype meta.block_width meta.block_height
      compressed has_nodata nodata

/-- Per-row body of `STRasterSummaryStatsMetadataBandFunction` (3
arguments): a null band, empty band buffer or negative band index is a null
row; otherwise the `try`-block body `metaBandStatsCall` runs — including the
`get_band_type` throw for an out-of-range index — and any failure is caught
into a null row. -/
def statsMetaBandRowE (oracle : ZOracle) : Row3 → Except DecodeErr (Option BandStats)
  | (band, metadata, band_idx) =>
    match band with
    | none => .ok none
    | some b =>
      if b.length = 0 ∨ band_idx < 0 then .ok none
      else
        tryToRow (metaBandStatsCall oracle b metadata band_idx)

/-- The null-or-struct value a row's slot receives from a row body that did
not abort the batch. -/
def rowResult (e : Except DecodeErr (Option BandStats)) : Option BandStats :=
  match e with
  | .ok o => o
  | .error _ => none

/-- The vectorized loop of the row adapters: rows are processed in order and
an exception escaping a row's body would abort the whole batch (modelled as
an `.error` of the whole run). -/
def batchRun {α : Type} (f : α → Except DecodeErr (Option BandStats)) :
    List α → Except DecodeErr (List (Option BandStats))
  | [] => .ok []
  | r :: rs =>
    match f r with
    | .error e => .error e
    | .ok o =>
      match batchRun f rs with
      | .error e => .error e
      | .ok os => .ok (o :: os)



/-- A concrete zlib behaviour used for witnesses whose inputs are
uncompressed (the oracle is never consulted there). -/
def zOracleTriv : ZOracle := fun _ _ => .initFail

/-- The test-vector descriptor string of spec section 8. -/
def c8Json : Str := strLit "\x7b\"compression\":\"gzip\",\"tiling\":\x7b\"min_zoom\":0,\"max_zoom\":10,\"block_width\":512,\"block_height\":512,\"scheme\":\"quadbin\"\x7d,\"crs\":\"EPSG:3857\",\"bands\":[\x7b\"name\":\"elevation\",\"type\":\"float32\"\x7d]\x7d"

/-- C8: `parse_metadata` applied to the spec's test-vector descriptor yields
compression "gzip", block width and height 512, max zoom 10, and the band
list exactly `[("elevation", "float32")]`. -/
theorem parse_metadata_c8_vector :
    (parse_metadata c8Json).compression = strLit "gzip" ∧
    (parse_metadata c8Json).block_width = 512 ∧
    (parse_metadata c8Json).block_height = 512 ∧
    (parse_metadata c8Json).max_zoom = 10 ∧
    (parse_metadata c8Json).bands = [(strLit "elevation", strLit "float32")] := by
  decide

/-- C1: `decode_pixel` on a 4-element uint8 band with `(x, y) = (5, 0)` and
width 2 computes element offset 5 and attempts to read it with no bounds
check against `width * height`: the read runs past the logical end of the
buffer (undefined behavior in the C++ source, the explicit `outOfBounds`
outcome in the model) instead of raising `InvalidInput`. -/
theorem decode_pixel_reads_out_of_bounds :
    decode_pixel zOracleTriv (some [1, 2, 3, 4]) 4 (strLit "uint8") 5 0 2 false =
      .error .outOfBounds ∧
    decode_pixel zOracleTriv (some [1, 2, 3, 4]) 4 (strLit "uint8") 5 0 2 false ≠
      .error .invalidInput := by
  decide

/-- C6: `decompress_gzip` with declared size 0 returns an empty output for
any pointer value (including null), and a null pointer with nonzero declared
size is an error. -/
theorem decompress_empty_and_null (oracle : ZOracle) (data : Option Bytes) (size : Nat) :
    decompress_gzip oracle data 0 = .ok [] ∧
    (size ≠ 0 → decompress_gzip oracle none size = .error .invalidInput) := by
  constructor
  · simp [decompress_gzip, decompress_run]
  · intro h
    simp [decompress_gzip, decompress_run, h]

/-- Witness for C6 at concrete inputs. -/
theorem decompress_empty_and_null_witness :
    decompress_gzip zOracleTriv (some [5]) 0 = .ok [] ∧
    ((3 : Nat) ≠ 0 ∧ decompress_gzip zOracleTriv none 3 = .error .invalidInput) :=
  ⟨(decompress_empty_and_null zOracleTriv (some [5]) 3).1,
   by decide,
   (decompress_empty_and_null zOracleTriv (some [5]) 3).2 (by decide)⟩

/-- Shape of `decompress_run` on a non-null input of nonzero size. -/
lemma decompress_run_some (oracle : ZOracle) (input : Bytes) (size : Nat) (hs : size ≠ 0) :
    decompress_run oracle (some input) size =
      match oracle input (estBuf size) with
      | .initFail => (.error .decodeFailure, [estBuf size])
      | .inflated ret availOut out =>
        if ret = -5 ∧ availOut = 0 then
          match oracle input (estBuf size * 4) with
          | .initFail => (.error .decodeFailure, [estBuf size, estBuf size * 4])
          | .inflated ret2 _ out2 =>
            if ret2 ≠ 1 then (.error .decodeFailure, [estBuf size, estBuf size * 4])
            else (.ok out2, [estBuf size, estBuf size * 4])
        else if ret ≠ 1 then (.error .decodeFailure, [estBuf size])
        else (.ok out, [estBuf size]) := by
  simp [decompress_run, hs]

/-- Shape of the attempt list: no inflate attempt (empty or null input),
one attempt, or exactly two with the second buffer 4 times the first. -/
lemma decompress_run_attempts_shape (oracle : ZOracle) (data : Option Bytes) (size : Nat) :
    (decompress_run oracle data size).2 = [] ∨
    (decompress_run oracle data size).2 = [estBuf size] ∨
    (decompress_run oracle data size).2 = [estBuf size, estBuf size * 4] := by
  by_cases hs : size = 0
  · subst hs
    simp [decompress_run]
  · cases data with
    | none => simp [decompress_run, hs]
    | some input =>
      rw [decompress_run_some oracle input size hs]
      cases h1 : oracle input (estBuf size) with
      | initFail => simp
      | inflated ret av out =>
        by_cases h45 : ret = -5 ∧ av = 0
        · simp only [h45, if_true]
          cases h2 : oracle input (estBuf size * 4) with
          | initFail => simp
          | inflated ret2 av2 out2 =>
            by_cases hr2 : ret2 = 1 <;> simp [hr2]
        · simp only [h45, if_false]
          by_cases hr1 : ret = 1 <;> simp [hr1]

/-- C7: the retry policy of `decompress_gzip` is bounded and fixed.  At most
two inflate attempts ever happen, and when there are two the second buffer
is exactly 4 times the first (hence at least 4 times).  When the first pass
reports its output buffer exhausted (`Z_BUF_ERROR`, that is `ret = -5`, with
no output space left), exactly one retry runs on the 4-times buffer: an
initialization failure or a non-`Z_STREAM_END` result of that single retry
is a terminal `DecodeFailure`, and a `Z_STREAM_END` retry succeeds.  A
first-pass failure other than buffer exhaustion is a terminal
`DecodeFailure` with no retry. -/
theorem decompress_retry_policy (oracle : ZOracle) (data : Option Bytes) (size : Nat) :
    (decompress_run oracle data size).2.length ≤ 2 ∧
    (∀ b1 b2, (decompress_run oracle data size).2 = [b1, b2] → b2 = 4 * b1) ∧
    (∀ input ret out, size ≠ 0 →
      oracle input (estBuf size) = .inflated ret 0 out → ret = -5 →
        (decompress_run oracle (some input) size).2 = [estBuf size, estBuf size * 4] ∧
        (oracle input (estBuf size * 4) = .initFail →
          (decompress_run oracle (some input) size).1 = .error .decodeFailure) ∧
        (∀ ret2 av2 out2, oracle input (estBuf size * 4) = .inflated ret2 av2 out2 →
          ret2 ≠ 1 → (decompress_run oracle (some input) size).1 = .error .decodeFailure) ∧
        (∀ ret2 av2 out2, oracle input (estBuf size * 4) = .inflated ret2 av2 out2 →
          ret2 = 1 → (decompress_run oracle (some input) size).1 = .ok out2)) ∧
    (∀ input ret av out, size ≠ 0 →
      oracle input (estBuf size) = .inflated ret av out → ¬(ret = -5 ∧ av = 0) → ret ≠ 1 →
        (decompress_run oracle (some input) size).1 = .error .decodeFailure ∧
        (decompress_run oracle (some input) size).2 = [estBuf size]) ∧
    (∀ input, size ≠ 0 → oracle input (estBuf size) = .initFail →
        (decompress_run oracle (some input) size).1 = .error .decodeFailure ∧
        (decompress_run oracle (some input) size).2 = [estBuf size]) := by
  refine ⟨?_, ?_, ?_, ?_, ?_⟩
  · rcases decompress_run_attempts_shape oracle data size with h | h | h <;> simp [h]
  · intro b1 b2 hb
    rcases decompress_run_attempts_shape oracle data size with h | h | h <;>
      rw [h] at hb
    · exact absurd hb (by simp)
    · exact absurd hb (by simp)
    · injection hb with e1 e2
      injection e2 with e2 _
      omega
  · intro input ret out hsz hor hret
    subst hret
    cases h2 : oracle input (estBuf size * 4) with
    | initFail =>
      have hval : decompress_run oracle (some input) size =
          (.error .decodeFailure, [estBuf size, estBuf size * 4]) := by
        rw [decompress_run_some oracle input size hsz]
        simp [hor, h2]
      refine ⟨by simp [hval], fun _ => by simp [hval], ?_, ?_⟩
      · intro r a o h3 _
        exact ZOut.noConfusion h3
      · intro r a o h3 _
        exact ZOut.noConfusion h3
    | inflated ret2 av2 out2 =>
      by_cases hr2 : ret2 = 1
      · subst hr2
        have hval : decompress_run oracle (some input) size =
            (.ok out2, [estBuf size, estBuf size * 4]) := by
          rw [decompress_run_some oracle input size hsz]
          simp [hor, h2]
        refine ⟨by simp [hval], ?_, ?_, ?_⟩
        · intro hcontra
          exact ZOut.noConfusion hcontra
        · intro r a o h3 hne
          injection h3 with f1 f2 f3
          exact absurd f1.symm hne
        · intro r a o h3 _
          injection h3 with f1 f2 f3
          simp [hval, f3]
      · have hval : decompress_run oracle (some input) size =
            (.error .decodeFailure, [estBuf size, estBuf size * 4]) := by
          rw [decompress_run_some oracle input size hsz]
          simp [hor, h2, hr2]
        refine ⟨by simp [hval], ?_, ?_, ?_⟩
        · intro hcontra
          exact ZOut.noConfusion hcontra
        · intro r a o h3 hne
          simp [hval]
        · intro r a o h3 hre
          injection h3 with f1 f2 f3
          exact absurd (f1.trans hre) hr2
  · intro input ret av out hsz hor hne hr1
    have hval : decompress_run oracle (some input) size =
        (.error .decodeFailure, [estBuf size]) := by
      rw [decompress_run_some oracle input size hsz]
      simp [hor, hne, hr1]
    exact ⟨by simp [hval], by simp [hval]⟩
  · intro input hsz hor
    have hval : decompress_run oracle (some input) size =
        (.error .decodeFailure, [estBuf size]) := by
      rw [decompress_run_some oracle input size hsz]
      simp [hor]
    exact ⟨by simp [hval], by simp [hval]⟩

/-- A zlib behaviour whose first pass exhausts the default 65536-byte buffer
and whose retry succeeds. -/
def zOracleRetry : ZOracle := fun _ bufSize =>
  if bufSize = 65536 then .inflated (-5) 0 [] else .inflated 1 5 [9, 9]

/-- A zlib behaviour whose first pass exhausts the buffer and whose retry
fails with a non-`Z_STREAM_END` code. -/
def zOracleRetryFail : ZOracle := fun _ bufSize =>
  if bufSize = 65536 then .inflated (-5) 0 [] else .inflated (-3) 100 []

/-- Witness for C7 at concrete zlib behaviours. -/
theorem decompress_retry_policy_witness :
    (decompress_run zOracleRetry (some [1, 2, 3]) 3).2 = [estBuf 3, estBuf 3 * 4] ∧
    (decompress_run zOracleRetry (some [1, 2, 3]) 3).1 = .ok [9, 9] ∧
    (decompress_run zOracleRetryFail (some [1, 2, 3]) 3).1 = .error .decodeFailure :=
  ⟨((decompress_retry_policy zOracleRetry (some [1, 2, 3]) 3).2.2.1 [1, 2, 3] (-5) []
      (by decide) (by decide) rfl).1,
   ((decompress_retry_policy zOracleRetry (some [1, 2, 3]) 3).2.2.1 [1, 2, 3] (-5) []
      (by decide) (by decide) rfl).2.2.2 1 5 [9, 9] (by decide) rfl,
   ((decompress_retry_policy zOracleRetryFail (some [1, 2, 3]) 3).2.2.1 [1, 2, 3] (-5) []
      (by decide) (by decide) rfl).2.2.1 (-3) 100 [] (by decide) (by decide)⟩

/-- C2 counterexample: on the 3-argument metadata overload, band index 0
with a metadata string declaring no bands (so the index is non-negative and
out of range) produces a null row result, not a hard `InvalidInput` error:
the `get_band_type` throw happens inside the row's `try` block and is caught
into a null row. -/
theorem statsMetaBand_out_of_range_is_null_row :
    statsMetaBandRowE zOracleTriv (some [1], strLit "\x7b\x7d", 0) = .ok none ∧
    statsMetaBandRowE zOracleTriv (some [1], strLit "\x7b\x7d", 0) ≠
      .error .invalidInput := by
  decide

/-- C2 (amended): on the 3-argument overload, a non-negative band index at
or past the number of declared bands yields a null row (the internal
`InvalidInput` throw of `get_band_type` is caught by the row-level handler),
exactly like a negative index or an empty band buffer; no hard error
escapes. -/
theorem statsMetaBand_bad_index_null_row (oracle : ZOracle) (b : Bytes) (m : Str) (idx : Int) :
    (0 ≤ idx → ((parse_metadata m).bands.length : Int) ≤ idx → b ≠ [] →
      statsMetaBandRowE oracle (some b, m, idx) = .ok none) ∧
    (idx < 0 → statsMetaBandRowE oracle (some b, m, idx) = .ok none) ∧
    statsMetaBandRowE oracle (some [], m, idx) = .ok none := by
  refine ⟨?_, ?_, ?_⟩
  · intro h0 hlen hb
    have hb' : b.length ≠ 0 := fun hc => hb (List.length_eq_zero.mp hc)
    have hneg : ¬ idx < 0 := by omega
    have hgbt : (parse_metadata m).get_band_type idx = .error .invalidInput := by
      simp [RaquetMetadata.get_band_type, hlen]
    simp [statsMetaBandRowE, metaBandStatsCall, hb', hneg, hgbt, tryToRow]
  · intro h
    simp [statsMetaBandRowE, h]
  · simp [statsMetaBandRowE]

/-- Witness for C2's amended theorem at concrete inputs. -/
theorem statsMetaBand_bad_index_null_row_witness :
    statsMetaBandRowE zOracleTriv (some [1], strLit "\x7b\x7d", 2) = .ok none ∧
    statsMetaBandRowE zOracleTriv (some [1], strLit "\x7b\x7d", -1) = .ok none ∧
    statsMetaBandRowE zOracleTriv (some [], strLit "\x7b\x7d", 0) = .ok none :=
  ⟨(statsMetaBand_bad_index_null_row zOracleTriv [1] (strLit "\x7b\x7d") 2).1
      (by decide) (by decide) (by decide),
   (statsMetaBand_bad_index_null_row zOracleTriv [1] (strLit "\x7b\x7d") (-1)).2.1 (by decide),
   (statsMetaBand_bad_index_null_row zOracleTriv [1] (strLit "\x7b\x7d") 0).2.2⟩

/-- When a key's search pattern does not occur, `extract_json_string`
returns the empty string. -/
lemma extract_json_string_of_no_key (json key : Str)
    (h : strFind json (keySearch key) = none) :
    extract_json_string json key = [] := by
  simp [extract_json_string, h]

/-- When a key's search pattern does not occur, `extract_json_object`
returns the empty string. -/
lemma extract_json_object_of_no_key (json key : Str)
    (h : strFind json (keySearch key) = none) :
    extract_json_object json key = [] := by
  simp [extract_json_object, h]

/-- When the bands key does not occur, `parse_bands` returns no bands. -/
lemma parse_bands_of_no_key (json : Str)
    (h : strFind json (keySearch (strLit "bands")) = none) :
    parse_bands json = [] := by
  simp [parse_bands, h]

/-- A metadata string mentioning none of the compression/tiling/bands keys
parses to all the documented defaults (with `crs` whatever the crs
extraction yields). -/
lemma parse_metadata_of_no_keys (m : Str)
    (hc : strFind m (keySearch (strLit "compression")) = none)
    (ht : strFind m (keySearch (strLit "tiling")) = none)
    (hb : strFind m (keySearch (strLit "bands")) = none) :
    parse_metadata m =
      { compression := strLit "none", block_width := 256, block_height := 256,
        min_zoom := 0, max_zoom := 26, pixel_zoom := 0, num_blocks := 0,
        scheme := strLit "quadbin", crs := extract_json_string m (strLit "crs"),
        bands := [], band_info := [] } := by
  rw [parse_metadata]
  rw [extract_json_string_of_no_key m (strLit "compression") hc]
  rw [extract_json_object_of_no_key m (strLit "tiling") ht]
  rw [parse_bands_of_no_key m hb]
  simp

/-- C5 counterexample: on a descriptor whose tiling object carries no scheme
key, the parsed scheme is the empty string, not "quadbin". -/
theorem parse_metadata_tiling_scheme_not_quadbin :
    (parse_metadata (strLit "\x7b\"tiling\":\x7b\"min_zoom\":1\x7d\x7d")).scheme ≠
      strLit "quadbin" := by
  decide

/-- C5 (amended): `parse_metadata` is total by construction (it never
raises), and on a descriptor mentioning none of the compression, tiling or
bands keys every field is its documented default: compression "none",
block width and height 256, min zoom 0, max zoom 26, pixel zoom 0,
num blocks 0, scheme "quadbin", empty band list.  However, the "quadbin"
scheme default applies only when no tiling object is present: when a tiling
object exists but contains no scheme key, the parsed scheme is the empty
string. -/
theorem parse_metadata_defaults (m : Str)
    (hc : strFind m (keySearch (strLit "compression")) = none)
    (ht : strFind m (keySearch (strLit "tiling")) = none)
    (hb : strFind m (keySearch (strLit "bands")) = none) :
    parse_metadata m =
      { compression := strLit "none", block_width := 256, block_height := 256,
        min_zoom := 0, max_zoom := 26, pixel_zoom := 0, num_blocks := 0,
        scheme := strLit "quadbin", crs := extract_json_string m (strLit "crs"),
        bands := [], band_info := [] } ∧
    (∀ m2 : Str, extract_json_object m2 (strLit "tiling") ≠ [] →
      strFind (extract_json_object m2 (strLit "tiling")) (keySearch (strLit "scheme")) = none →
      (parse_metadata m2).scheme = []) := by
  refine ⟨parse_metadata_of_no_keys m hc ht hb, ?_⟩
  intro m2 htil hsch
  rw [parse_metadata]
  simp only [htil, if_true, ne_eq, not_false_iff]
  exact extract_json_string_of_no_key _ _ hsch

/-- Witness for C5's amended theorem at concrete inputs. -/
theorem parse_metadata_defaults_witness :
    parse_metadata (strLit "not a descriptor") =
      { compression := strLit "none", block_width := 256, block_height := 256,
        min_zoom := 0, max_zoom := 26, pixel_zoom := 0, num_blocks := 0,
        scheme := strLit "quadbin", crs := [], bands := [], band_info := [] } ∧
    (parse_metadata (strLit "\x7b\"tiling\":\x7b\"min_zoom\":1\x7d\x7d")).scheme = [] :=
  ⟨((parse_metadata_defaults (strLit "not a descriptor")
      (by decide) (by decide) (by decide)).1).trans (by decide),
   (parse_metadata_defaults (strLit "not a descriptor")
      (by decide) (by decide) (by decide)).2
     (strLit "\x7b\"tiling\":\x7b\"min_zoom\":1\x7d\x7d") (by decide) (by decide)⟩

/-- C10: for the 2-argument overload, a metadata string mentioning none of
the compression/tiling/bands keys (in particular any non-JSON string) never
by itself nulls the row: metadata parsing is total, and the band is decoded
with the fallback configuration — pixel type "uint8", 256 by 256 grid, no
decompression, no nodata filtering.  A null row arises exactly from a null
band, an empty band buffer, or a failure while decoding the band bytes
themselves. -/
theorem statsMeta_malformed_metadata_fallback (oracle : ZOracle) (m : Str)
    (hc : strFind m (keySearch (strLit "compression")) = none)
    (ht : strFind m (keySearch (strLit "tiling")) = none)
    (hb : strFind m (keySearch (strLit "bands")) = none) :
    statsMetaRowE oracle (none, m) = .ok none ∧
    statsMetaRowE oracle (some [], m) = .ok none ∧
    (∀ b : Bytes, b ≠ [] →
      metaStatsCall oracle b m =
        compute_band_stats oracle b (strLit "uint8") 256 256 false false (.num 0) ∧
      statsMetaRowE oracle (some b, m) =
        .ok (match compute_band_stats oracle b (strLit "uint8") 256 256 false false (.num 0) with
             | .ok s => some s
             | .error _ => none)) := by
  have hmeta := parse_metadata_of_no_keys m hc ht hb
  refine ⟨by simp [statsMetaRowE], by simp [statsMetaRowE], ?_⟩
  intro b hbne
  have hblen : b.length ≠ 0 := fun hz => hbne (List.length_eq_zero.mp hz)
  have hng : (decide (strLit "none" = strLit "gzip")) = false := by decide
  have hcall : metaStatsCall oracle b m =
      compute_band_stats oracle b (strLit "uint8") 256 256 false false (.num 0) := by
    rw [metaStatsCall, hmeta]
    simp [hng]
  refine ⟨hcall, ?_⟩
  simp only [statsMetaRowE, hblen, if_false, hcall]
  cases compute_band_stats oracle b (strLit "uint8") 256 256 false false (.num 0) <;> rfl

/-- Witness for C10 at concrete inputs (the 1-byte band cannot fill a
256 by 256 uint8 grid, so decoding fails and the row is null). -/
theorem statsMeta_malformed_metadata_fallback_witness :
    statsMetaRowE zOracleTriv (none, strLit "not a descriptor") = .ok none ∧
    statsMetaRowE zOracleTriv (some [], strLit "not a descriptor") = .ok none ∧
    statsMetaRowE zOracleTriv (some [7], strLit "not a descriptor") = .ok none :=
  ⟨(statsMeta_malformed_metadata_fallback zOracleTriv (strLit "not a descriptor")
      (by decide) (by decide) (by decide)).1,
   (statsMeta_malformed_metadata_fallback zOracleTriv (strLit "not a descriptor")
      (by decide) (by decide) (by decide)).2.1,
   (((statsMeta_malformed_metadata_fallback zOracleTriv (strLit "not a descriptor")
      (by decide) (by decide) (by decide)).2.2 [7] (by decide)).2).trans (by decide)⟩

/-- C3: with nodata filtering enabled, `compute_band_stats` aggregates
exactly the decoded samples that do not match the nodata sentinel, and the
match rule is: when the sentinel is not-a-number, a sample matches exactly
when it is not-a-number; when the sentinel is a finite value `q`, a sample
matches exactly when it is the finite value `q` (exact equality, no
epsilon); when the sentinel is an infinity, a sample matches exactly when it
is that same infinity.  In particular the count is the number of
non-matching samples. -/
theorem compute_band_stats_nodata_filter (oracle : ZOracle) (data : Bytes)
    (dtype_str : Str) (width height : Int) (compressed : Bool) (nodata : PVal)
    (vals : List PVal)
    (hv : band_values oracle data dtype_str width height compressed = .ok vals) :
    compute_band_stats oracle data dtype_str width height compressed true nodata =
      .ok (statsOfList (vals.filter (fun v => !(matchesNodata v nodata)))) ∧
    (statsOfList (vals.filter (fun v => !(matchesNodata v nodata)))).count =
      (vals.filter (fun v => !(matchesNodata v nodata))).length ∧
    (∀ v, matchesNodata v .nan = true ↔ v = .nan) ∧
    (∀ q v, matchesNodata v (.num q) = true ↔ v = .num q) ∧
    (∀ s v, matchesNodata v (.inf s) = true ↔ v = .inf s) := by
  refine ⟨?_, ?_, ?_, ?_, ?_⟩
  · simp [compute_band_stats, hv]
  · simp [statsOfList]
  · intro v
    cases v <;> simp [matchesNodata, PVal.feq]
  · intro q v
    cases v <;> simp [matchesNodata, PVal.feq]
  · intro s v
    cases v <;> simp [matchesNodata, PVal.feq]

/-- The two-sample float64 band `[NaN, +Inf]` (little-endian bytes). -/
def nanInfBand : Bytes :=
  [0, 0, 0, 0, 0, 0, 248, 127, 0, 0, 0, 0, 0, 0, 240, 127]

/-- Witness for C3: on the float64 band `[NaN, +Inf]` with a not-a-number
nodata sentinel, exactly the not-a-number sample is excluded and the count
of included samples is 1. -/
theorem compute_band_stats_nodata_filter_witness :
    compute_band_stats zOracleTriv nanInfBand (strLit "float64") 2 1 false true .nan =
      .ok (statsOfList [.inf false]) ∧
    (statsOfList [.inf false]).count = 1 ∧
    matchesNodata .nan .nan = true ∧
    matchesNodata (.inf false) .nan = false :=
  ⟨((compute_band_stats_nodata_filter zOracleTriv nanInfBand (strLit "float64") 2 1
      false .nan [.nan, .inf false] (by decide)).1).trans (by decide),
   by decide, by decide, by decide⟩

/-- `tryToRow` never lets an error escape. -/
lemma tryToRow_total (x : Except DecodeErr BandStats) :
    tryToRow x = .ok (rowResult (tryToRow x)) := by
  cases x <;> rfl

/-- The 6-argument row body never lets an error escape. -/
lemma statsRowE_total (oracle : ZOracle) (r : Row6) :
    statsRowE oracle r = .ok (rowResult (statsRowE oracle r)) := by
  obtain ⟨band, d, w, h, c, nd⟩ := r
  cases band with
  | none => rfl
  | some b =>
    by_cases hb : b.length = 0
    · simp [statsRowE, hb, rowResult]
    · simp only [statsRowE, hb, if_false]
      exact tryToRow_total _

/-- The 5-argument row body never lets an error escape. -/
lemma statsSimpleRowE_total (oracle : ZOracle) (r : Row5) :
    statsSimpleRowE oracle r = .ok (rowResult (statsSimpleRowE oracle r)) := by
  obtain ⟨band, d, w, h, c⟩ := r
  cases band with
  | none => rfl
  | some b =>
    by_cases hb : b.length = 0
    · simp [statsSimpleRowE, hb, rowResult]
    · simp only [statsSimpleRowE, hb, if_false]
      exact tryToRow_total _

/-- The 2-argument row body never lets an error escape. -/
lemma statsMetaRowE_total (oracle : ZOracle) (r : Row2) :
    statsMetaRowE oracle r = .ok (rowResult (statsMetaRowE oracle r)) := by
  obtain ⟨band, m⟩ := r
  cases band with
  | none => rfl
  | some b =>
    by_cases hb : b.length = 0
    · simp [statsMetaRowE, hb, rowResult]
    · simp only [statsMetaRowE, hb, if_false]
      exact tryToRow_total _

/-- The 3-argument row body never lets an error escape. -/
lemma statsMetaBandRowE_total (oracle : ZOracle) (r : Row3) :
    statsMetaBandRowE oracle r = .ok (rowResult (statsMetaBandRowE oracle r)) := by
  obtain ⟨band, m, i⟩ := r
  cases band with
  | none => rfl
  | some b =>
    by_cases hb : b.length = 0 ∨ i < 0
    · rcases hb with h | h
      · simp [statsMetaBandRowE, List.length_eq_zero.mp h, rowResult]
      · simp [statsMetaBandRowE, h, rowResult]
    · simp only [statsMetaBandRowE, hb, if_false]
      exact tryToRow_total _

/-- A batch over a row body that never escapes processes every row
independently. -/
lemma batchRun_eq_map {α : Type} (f : α → Except DecodeErr (Option BandStats))
    (hf : ∀ r, f r = .ok (rowResult (f r))) :
    ∀ rows : List α, batchRun f rows = .ok (rows.map fun r => rowResult (f r))
  | [] => rfl
  | r :: rs => by
    rw [batchRun, hf r]
    rw [batchRun_eq_map f hf rs]
    simp [rowResult]

/-- C4: across all four overloads, the batch never aborts — it is the
per-row map of the row body — and a null band input, an empty band buffer,
or any internal error (`DecodeFailure`/`InvalidInput`/... raised during
decoding or statistics) yields a null struct result for that row. -/
theorem stats_rows_never_abort (oracle : ZOracle) :
    (∀ rows : List Row6, batchRun (statsRowE oracle) rows =
      .ok (rows.map fun r => rowResult (statsRowE oracle r))) ∧
    (∀ rows : List Row5, batchRun (statsSimpleRowE oracle) rows =
      .ok (rows.map fun r => rowResult (statsSimpleRowE oracle r))) ∧
    (∀ rows : List Row2, batchRun (statsMetaRowE oracle) rows =
      .ok (rows.map fun r => rowResult (statsMetaRowE oracle r))) ∧
    (∀ rows : List Row3, batchRun (statsMetaBandRowE oracle) rows =
      .ok (rows.map fun r => rowResult (statsMetaBandRowE oracle r))) ∧
    (∀ d w h c nd, statsRowE oracle (none, d, w, h, c, nd) = .ok none ∧
      statsRowE oracle (some [], d, w, h, c, nd) = .ok none) ∧
    (∀ d w h c, statsSimpleRowE oracle (none, d, w, h, c) = .ok none ∧
      statsSimpleRowE oracle (some [], d, w, h, c) = .ok none) ∧
    (∀ m, statsMetaRowE oracle (none, m) = .ok none ∧
      statsMetaRowE oracle (some [], m) = .ok none) ∧
    (∀ m i, statsMetaBandRowE oracle (none, m, i) = .ok none ∧
      statsMetaBandRowE oracle (some [], m, i) = .ok none) ∧
    (∀ b d w h c nd e,
      compute_band_stats oracle b d w h (c = strLit "gzip") nd.isSome (nd.getD (.num 0)) =
        .error e →
      statsRowE oracle (some b, d, w, h, c, nd) = .ok none) ∧
    (∀ b d w h c e,
      compute_band_stats oracle b d w h (c = strLit "gzip") false (.num 0) = .error e →
      statsSimpleRowE oracle (some b, d, w, h, c) = .ok none) ∧
    (∀ b m e, metaStatsCall oracle b m = .error e →
      statsMetaRowE oracle (some b, m) = .ok none) ∧
    (∀ b m i e, ¬ i < 0 → metaBandStatsCall oracle b m i = .error e →
      statsMetaBandRowE oracle (some b, m, i) = .ok none) := by
  refine ⟨batchRun_eq_map _ (statsRowE_total oracle),
    batchRun_eq_map _ (statsSimpleRowE_total oracle),
    batchRun_eq_map _ (statsMetaRowE_total oracle),
    batchRun_eq_map _ (statsMetaBandRowE_total oracle),
    fun d w h c nd => ⟨rfl, by simp [statsRowE]⟩,
    fun d w h c => ⟨rfl, by simp [statsSimpleRowE]⟩,
    fun m => ⟨rfl, by simp [statsMetaRowE]⟩,
    fun m i => ⟨rfl, by simp [statsMetaBandRowE]⟩,
    ?_, ?_, ?_, ?_⟩
  · intro b d w h c nd e herr
    by_cases hb : b.length = 0
    · simp [statsRowE, hb]
    · simp [statsRowE, hb, herr, tryToRow]
  · intro b d w h c e herr
    by_cases hb : b.length = 0
    · simp [statsSimpleRowE, hb]
    · simp [statsSimpleRowE, hb, herr, tryToRow]
  · intro b m e herr
    by_cases hb : b.length = 0
    · simp [statsMetaRowE, hb]
    · simp [statsMetaRowE, hb, herr, tryToRow]
  · intro b m i e hi herr
    by_cases hb : b.length = 0
    · simp [statsMetaBandRowE, hb]
    · simp [statsMetaBandRowE, hb, hi, herr, tryToRow]

/-- Witness for C4 at concrete inputs: a three-row batch of the 2-argument
overload (null band, empty band, band too short for the fallback grid)
produces three null rows without aborting; the null-band row of the
6-argument overload is null; a decode failure (1-byte band, 2 by 2 grid)
gives a null row. -/
theorem stats_rows_never_abort_witness :
    batchRun (statsMetaRowE zOracleTriv)
      [(none, strLit "x"), (some [], strLit "x"), (some [7], strLit "x")] =
      .ok [none, none, none] ∧
    statsRowE zOracleTriv (none, strLit "uint8", 1, 1, strLit "none", none) = .ok none ∧
    statsRowE zOracleTriv (some [1], strLit "uint8", 2, 2, strLit "none", none) = .ok none :=
  ⟨((stats_rows_never_abort zOracleTriv).2.2.1
      [(none, strLit "x"), (some [], strLit "x"), (some [7], strLit "x")]).trans (by decide),
   ((stats_rows_never_abort zOracleTriv).2.2.2.2.1 (strLit "uint8") 1 1 (strLit "none") none).1,
   (stats_rows_never_abort zOracleTriv).2.2.2.2.2.2.2.2.1 [1] (strLit "uint8") 2 2
     (strLit "none") none .outOfBounds (by decide)⟩

/-- Specification-side reading of the band-list extraction (claim C9,
spec section 4.1), stated independently of the source loop: the successive
`{...}` objects of a span, each taken from the next `{` to the **first**
following `}` (fuel as in `parseBandObjsF`). -/
def takeObjsF : Nat → Str → List Str
  | 0, _ => []
  | fuel + 1, s =>
    match strFind s [lb] with
    | none => []
    | some ost =>
      match strFindFrom s [rb] ost with
      | none => []
      | some oe => ((s.drop ost).take (oe - ost + 1)) :: takeObjsF fuel (s.drop (oe + 1))

/-- Specification-side extraction of one band object's fields: the `name`
and `type` string fields, the entry dropped silently when either is
empty. -/
def bandObjFields (obj : Str) : Option (Str × Str) :=
  let n := extract_json_string obj (strLit "name")
  let t := extract_json_string obj (strLit "type")
  if n ≠ [] ∧ t ≠ [] then some (n, t) else none

/-- Specification-side band span: between the first `[` after the first
occurrence of `"bands":` and the first `]` anywhere after that `[`. -/
def bandsSpan (json : Str) : Option Str :=
  match strFind json (keySearch (strLit "bands")) with
  | none => none
  | some bp =>
    match strFindFrom json [lk] bp with
    | none => none
    | some a =>
      match strFindFrom json [rk] a with
      | none => none
      | some e => some ((json.drop (a + 1)).take (e - a - 1))

/-- The band list as the specification words it: the `(name, type)` pairs of
the span's successive first-brace-matched objects, entries with an empty
name or type dropped, in order. -/
def parse_bands_spec (json : Str) : List (Str × Str) :=
  match bandsSpan json with
  | none => []
  | some span => (takeObjsF (span.length + 1) span).filterMap bandObjFields

/-- The source loop is the filter-map of the object sequence. -/
lemma parseBandObjsF_filterMap : ∀ (fuel : Nat) (s : Str),
    parseBandObjsF fuel s = (takeObjsF fuel s).filterMap bandObjFields := by
  intro fuel
  induction fuel with
  | zero => intro s; rfl
  | succ n ih =>
    intro s
    cases h1 : strFind s [lb] with
    | none => simp [parseBandObjsF, takeObjsF, h1]
    | some ost =>
      cases h2 : strFindFrom s [rb] ost with
      | none => simp [parseBandObjsF, takeObjsF, h1, h2]
      | some oe =>
        by_cases hnt :
            extract_json_string ((s.drop ost).take (oe - ost + 1)) (strLit "name") ≠ [] ∧
            extract_json_string ((s.drop ost).take (oe - ost + 1)) (strLit "type") ≠ []
        · simp [parseBandObjsF, takeObjsF, h1, h2, bandObjFields, hnt, ih]
        · simp [parseBandObjsF, takeObjsF, h1, h2, bandObjFields, hnt, ih]

/-- C9: `parse_bands` returns exactly what the specification describes —
the span between the first `[` after the first `"bands":` and the first `]`
after that `[`, cut into successive `{...}` objects by matching only the
first `}`, each contributing its `name`/`type` string fields, with entries
whose name or type is empty dropped silently, in order. -/
theorem parse_bands_eq_spec (json : Str) : parse_bands json = parse_bands_spec json := by
  cases h1 : strFind json (keySearch (strLit "bands")) with
  | none => simp [parse_bands, parse_bands_spec, bandsSpan, h1]
  | some bp =>
    cases h2 : strFindFrom json [lk] bp with
    | none => simp [parse_bands, parse_bands_spec, bandsSpan, h1, h2]
    | some a =>
      cases h3 : strFindFrom json [rk] a with
      | none => simp [parse_bands, parse_bands_spec, bandsSpan, h1, h2, h3]
      | some e =>
        simp only [parse_bands, parse_bands_spec, bandsSpan, h1, h2, h3]
        exact parseBandObjsF_filterMap _ _
